import Mathlib

/-!
Verification of the spreadsheet-backed store, classifier pipeline and email
reporter of the `scraper_boletin_oficial` repository, as a shallow embedding.

The embedding mirrors, definition by definition:
  * `src/storage.py` (`load_regulations`, `save_regulations`,
    `get_recent_regulations`),
  * `src/classifier.py` (`classify_text`, `summarize_text`, `create_title`,
    `classify_regulations`),
  * `src/email_service.py` (`build_top_resolutions_payload`,
    `generar_resumen_ejecutivo_fallback`, `generar_resumen_ejecutivo_llm`),
  * the record selection of `send_weekly_report_prefect.py`.

Pandas dataframes are embedded as Lists of explicit row structures; datetime
values as calendar dates compared through their day ordinal (`Date.toOrdinal`,
the standard days-from-civil formula, which is how `pandas.Timestamp`
comparison and `timedelta` arithmetic behave at midnight resolution); the
remote LLM calls as oracle parameters giving, per input text, either a parsed
structured response or an exception (`Except`).  Excel files are embedded as
association lists of named sheets; a missing or malformed file is a dedicated
constructor.  In-place dataframe mutation is embedded as explicit state
passing: the mutated frame is part of the function result.
-/

namespace BO

/-! ## Calendar dates, mirroring `pandas.to_datetime(..., format="%d/%m/%Y")` -/

/-- A calendar date as carried by the `Fecha Publicación` column. -/
structure Date where
  day : Nat
  month : Nat
  year : Nat
deriving DecidableEq, Repr

/-- Gregorian leap-year rule. -/
def isLeap (y : Nat) : Bool :=
  y % 4 == 0 && (y % 100 != 0 || y % 400 == 0)

/-- Number of days of month `m` of year `y`. -/
def daysInMonth (m y : Nat) : Nat :=
  if m = 2 then (if isLeap y then 29 else 28)
  else if m = 4 ∨ m = 6 ∨ m = 9 ∨ m = 11 then 30
  else 31

/-- Calendar validity of a date (what `pandas` accepts before range checks). -/
def Date.validB (d : Date) : Bool :=
  1 ≤ d.month && d.month ≤ 12 && 1 ≤ d.day && d.day ≤ daysInMonth d.month d.year
    && 1 ≤ d.year && d.year ≤ 9999

/-- Days since 1970-01-01 (days-from-civil formula, floor divisions). -/
def civilOrdinal (y m d : Int) : Int :=
  let y2 : Int := if m ≤ 2 then y - 1 else y
  let era : Int := Int.fdiv y2 400
  let yoe : Int := y2 - era * 400
  let mp : Int := if 2 < m then m - 3 else m + 9
  let doy : Int := Int.fdiv (153 * mp + 2) 5 + d - 1
  let doe : Int := yoe * 365 + Int.fdiv yoe 4 - Int.fdiv yoe 100 + doy
  era * 146097 + doe - 719468

/-- Day ordinal of a date, the key under which `pandas` datetimes compare. -/
def Date.toOrdinal (d : Date) : Int :=
  civilOrdinal (d.year : Int) (d.month : Int) (d.day : Int)

/-- Smallest whole day representable by a `pandas.Timestamp` (1677-09-22). -/
def pandasMinOrd : Int := Date.toOrdinal ⟨22, 9, 1677⟩

/-- Largest whole day representable by a `pandas.Timestamp` (2262-04-11). -/
def pandasMaxOrd : Int := Date.toOrdinal ⟨11, 4, 2262⟩

/-- A date `pandas.to_datetime` turns into a real timestamp rather than `NaT`:
calendar-valid and inside the `Timestamp` range. -/
def Date.parseable (d : Date) : Bool :=
  d.validB && (pandasMinOrd ≤ d.toOrdinal && d.toOrdinal ≤ pandasMaxOrd)

/-! ## Decimal digits, `%d/%m/%Y` parsing and `strftime` serialization -/

/-- The decimal digit character for `n` (total, clipped at 9 like a match
catch-all; only applied to values below 10). -/
def digitChar (n : Nat) : Char :=
  match n with
  | 0 => '0'
  | 1 => '1'
  | 2 => '2'
  | 3 => '3'
  | 4 => '4'
  | 5 => '5'
  | 6 => '6'
  | 7 => '7'
  | 8 => '8'
  | _ => '9'

/-- Numeric value of a digit character. -/
def digitVal (c : Char) : Nat := c.toNat - 48

/-- Value of a nonempty all-digit character group, `none` otherwise. -/
def parseDigits (cs : List Char) : Option Nat :=
  match cs with
  | [] => none
  | _ =>
    if cs.all Char.isDigit then
      some (cs.foldl (fun a c => 10 * a + digitVal c) 0)
    else none

/-- Split a character list on `/` separators (like `strptime` consuming the
literal slashes of the format `%d/%m/%Y`). -/
def splitSlash (cs : List Char) : List (List Char) :=
  match cs with
  | [] => [[]]
  | c :: rest =>
    let groups := splitSlash rest
    if c = '/' then [] :: groups
    else
      match groups with
      | [] => [[c]]
      | g :: gs => (c :: g) :: gs

/-- `pandas.to_datetime(s, format="%d/%m/%Y", errors="coerce")` on the
character content: exactly three slash-separated groups, day and month of at
most two digits, year of at most four, calendar-valid and in `Timestamp`
range; every failure coerces to `NaT` (here `none`). -/
def parseDateChars (cs : List Char) : Option Date :=
  match splitSlash cs with
  | [ds, ms, ys] =>
    if ds.length ≤ 2 && ms.length ≤ 2 && ys.length ≤ 4 then
      match parseDigits ds, parseDigits ms, parseDigits ys with
      | some d, some m, some y =>
        if Date.parseable ⟨d, m, y⟩ then some ⟨d, m, y⟩ else none
      | _, _, _ => none
    else none
  | _ => none

/-- String-level date parse. -/
def parseDateStr (s : String) : Option Date :=
  parseDateChars s.data

/-- Two-digit zero-padded decimal (for `%d` and `%m`). -/
def pad2 (n : Nat) : List Char := [digitChar (n / 10), digitChar (n % 10)]

/-- Four-digit zero-padded decimal (for `%Y` in the `Timestamp` range). -/
def pad4 (n : Nat) : List Char :=
  [digitChar (n / 1000), digitChar (n / 100 % 10), digitChar (n / 10 % 10),
    digitChar (n % 10)]

/-- `strftime("%d/%m/%Y")` character content. -/
def serializeDateChars (d : Date) : List Char :=
  pad2 d.day ++ ('/' :: (pad2 d.month ++ ('/' :: pad4 d.year)))

/-- `strftime("%d/%m/%Y")` on a date value. -/
def serializeDate (d : Date) : String :=
  String.mk (serializeDateChars d)

/-! ### Round-trip lemmas for the date codec -/

theorem digitVal_digitChar : ∀ n, n < 10 → digitVal (digitChar n) = n := by
  decide

theorem isDigit_digitChar (n : Nat) : (digitChar n).isDigit = true := by
  unfold digitChar
  split <;> decide

theorem digitChar_ne_slash (n : Nat) : digitChar n ≠ '/' := by
  intro h
  have h2 := isDigit_digitChar n
  rw [h] at h2
  simp [Char.isDigit] at h2

theorem splitSlash_sep (l r : List Char) (hl : ∀ c ∈ l, c ≠ '/') :
    splitSlash (l ++ '/' :: r) = l :: splitSlash r := by
  induction l with
  | nil => simp [splitSlash]
  | cons c t ih =>
    have hc : c ≠ '/' := hl c (List.mem_cons_self c t)
    have ht : ∀ x ∈ t, x ≠ '/' := fun x hx => hl x (List.mem_cons_of_mem c hx)
    simp only [List.cons_append, splitSlash]
    rw [if_neg hc]
    simp only [List.append_eq]
    rw [ih ht]

theorem splitSlash_no_sep (l : List Char) (hl : ∀ c ∈ l, c ≠ '/') :
    splitSlash l = [l] := by
  induction l with
  | nil => rfl
  | cons c t ih =>
    have hc : c ≠ '/' := hl c (List.mem_cons_self c t)
    have ht : ∀ x ∈ t, x ≠ '/' := fun x hx => hl x (List.mem_cons_of_mem c hx)
    simp only [splitSlash, ih ht, if_neg hc]

theorem pad2_no_slash (n : Nat) : ∀ c ∈ pad2 n, c ≠ '/' := by
  intro c hc
  simp only [pad2, List.mem_cons, List.not_mem_nil, or_false] at hc
  rcases hc with h | h <;> (subst h; exact digitChar_ne_slash _)

theorem pad4_no_slash (n : Nat) : ∀ c ∈ pad4 n, c ≠ '/' := by
  intro c hc
  simp only [pad4, List.mem_cons, List.not_mem_nil, or_false] at hc
  rcases hc with h | h | h | h <;> (subst h; exact digitChar_ne_slash _)

theorem parseDigits_pad2 (n : Nat) (h : n < 100) : parseDigits (pad2 n) = some n := by
  have h1 : n / 10 < 10 := by omega
  have h2 : n % 10 < 10 := by omega
  simp only [pad2, parseDigits, List.all_cons, List.all_nil,
    isDigit_digitChar, Bool.and_self, Bool.and_true, if_true]
  simp only [List.foldl_cons, List.foldl_nil,
    digitVal_digitChar _ h1, digitVal_digitChar _ h2]
  congr 1
  omega

theorem parseDigits_pad4 (n : Nat) (h : n < 10000) :
    parseDigits (pad4 n) = some n := by
  have h1 : n / 1000 < 10 := by omega
  have h2 : n / 100 % 10 < 10 := by omega
  have h3 : n / 10 % 10 < 10 := by omega
  have h4 : n % 10 < 10 := by omega
  simp only [pad4, parseDigits, List.all_cons, List.all_nil,
    isDigit_digitChar, Bool.and_self, Bool.and_true, if_true]
  simp only [List.foldl_cons, List.foldl_nil, digitVal_digitChar _ h1,
    digitVal_digitChar _ h2, digitVal_digitChar _ h3, digitVal_digitChar _ h4]
  congr 1
  omega

theorem pad2_length (n : Nat) : (pad2 n).length = 2 := rfl

theorem pad4_length (n : Nat) : (pad4 n).length = 4 := rfl

theorem Date.validB_bounds (d : Date) (h : d.validB = true) :
    d.day < 100 ∧ d.month < 100 ∧ d.year < 10000 := by
  simp only [Date.validB, Bool.and_eq_true, decide_eq_true_eq] at h
  have h31 : daysInMonth d.month d.year ≤ 31 := by
    unfold daysInMonth
    split
    · split <;> omega
    · split <;> omega
  omega

/-- Serializing a pandas-parseable date and parsing the result gives the same
date back: `strftime` output re-enters `to_datetime` unchanged. -/
theorem parse_serialize (d : Date) (h : d.parseable = true) :
    parseDateStr (serializeDate d) = some d := by
  have hv : d.validB = true := by
    simp only [Date.parseable, Bool.and_eq_true] at h
    exact h.1
  obtain ⟨hd, hm, hy⟩ := Date.validB_bounds d hv
  have hsplit : splitSlash (serializeDateChars d) =
      [pad2 d.day, pad2 d.month, pad4 d.year] := by
    unfold serializeDateChars
    rw [splitSlash_sep _ _ (pad2_no_slash d.day),
      splitSlash_sep _ _ (pad2_no_slash d.month),
      splitSlash_no_sep _ (pad4_no_slash d.year)]
  show parseDateChars (serializeDateChars d) = some d
  unfold parseDateChars
  rw [hsplit]
  simp only [pad2_length, pad4_length, parseDigits_pad2 _ hd, parseDigits_pad2 _ hm,
    parseDigits_pad4 _ hy]
  simp [h]

/-- A successful parse only ever returns a pandas-parseable date. -/
theorem parseable_of_parse (s : String) (d : Date)
    (h : parseDateStr s = some d) : d.parseable = true := by
  unfold parseDateStr parseDateChars at h
  split at h
  · split at h
    · split at h
      · split at h
        · rename_i heq _ _ _ _ _ hp
          cases h
          exact hp
        · exact absurd h (by simp)
      · exact absurd h (by simp)
    · exact absurd h (by simp)
  · exact absurd h (by simp)

/-! ## The Excel store (`src/storage.py`)

A store row carries the raw string of the `Fecha Publicación` cell plus the
remaining cells; an Excel file is missing, malformed (not a spreadsheet), or a
workbook of named sheets. -/

/-- One data row of the store sheet: the raw date cell and the other cells. -/
structure StoreRow where
  fecha : String
  rest : List String
deriving DecidableEq, Repr

/-- An Excel file as seen through `pathlib` existence plus `pd.read_excel`. -/
inductive XFile where
  | missing
  | malformed
  | workbook (sheets : List (String × List StoreRow))
deriving DecidableEq, Repr

/-- The sheet name used throughout `storage.py`. -/
def SHEET_NAME : String := "resoluciones_relevantes"

/-- `pd.read_excel(path, sheet_name=SHEET_NAME)`: raises (`Except.error`) on a
non-spreadsheet file or a workbook without the sheet. -/
def readExcelSheet (f : XFile) : Except Unit (List StoreRow) :=
  match f with
  | .missing => .error ()
  | .malformed => .error ()
  | .workbook sheets =>
    match sheets.lookup SHEET_NAME with
    | some rows => .ok rows
    | none => .error ()

/-- `storage.load_regulations`: empty frame when the file does not exist,
re-raise any read error otherwise. -/
def load_regulations (f : XFile) : Except Unit (List StoreRow) :=
  match f with
  | .missing => .ok []
  | .malformed => readExcelSheet f
  | .workbook _ => readExcelSheet f

/-- The date-parse step applied to the whole frame followed by
`dropna(subset=["Fecha Publicación"])`: each surviving row paired with its
parsed date, in original order. -/
def parsedOf (rows : List StoreRow) : List (StoreRow × Date) :=
  rows.filterMap (fun r => (parseDateStr r.fecha).map (fun dt => (r, dt)))

/-- The boolean window mask `(date >= today - (days-1)) & (date <= today)`. -/
def inWindowB (today : Date) (days : Nat) (dt : Date) : Bool :=
  decide (today.toOrdinal - ((days : Int) - 1) ≤ dt.toOrdinal) &&
    decide (dt.toOrdinal ≤ today.toOrdinal)

/-- `df.loc[mask]`: the parsed rows whose date lies in the window, in original
order. -/
def inWinOf (today : Date) (days : Nat) (rows : List StoreRow) :
    List (StoreRow × Date) :=
  (parsedOf rows).filter (fun p => inWindowB today days p.2)

/-- Sort key of `sort_values(by="Fecha Publicación", ascending=True)`. -/
def dateLe (p q : StoreRow × Date) : Prop :=
  p.2.toOrdinal ≤ q.2.toOrdinal

instance : DecidableRel dateLe :=
  fun p q => inferInstanceAs (Decidable (p.2.toOrdinal ≤ q.2.toOrdinal))

instance : IsTotal (StoreRow × Date) dateLe :=
  ⟨fun p q => le_total p.2.toOrdinal q.2.toOrdinal⟩

instance : IsTrans (StoreRow × Date) dateLe :=
  ⟨fun _ _ _ h1 h2 => le_trans h1 h2⟩

/-- Writing the parsed date back into the date cell with
`.dt.strftime("%d/%m/%Y")`. -/
def reserialize (p : StoreRow × Date) : StoreRow :=
  { p.1 with fecha := serializeDate p.2 }

/-- Result of `get_recent_regulations`: the returned frame and the state of
the backing file after the call. -/
structure RecentOut where
  result : List StoreRow
  file : XFile
deriving DecidableEq, Repr

/-- `storage.get_recent_regulations`, with `datetime.now()`'s midnight passed
in as `today`.  Mirrors the source line by line: missing file short-circuits
to an empty frame; the sheet is read (read errors propagate); an empty frame
returns immediately; otherwise the date column is parsed with
`errors="coerce"`, unparsable rows are dropped, the window mask is applied,
the in-window rows are returned date-ascending with the date re-serialized;
and when `archive_old` holds and the mask dropped at least one (parsed) row,
the whole file is rewritten to hold only the in-window rows. -/
def get_recent_regulations (f : XFile) (today : Date) (days : Nat)
    (archive_old : Bool) : Except Unit RecentOut :=
  if f = .missing then .ok ⟨[], f⟩
  else
    match readExcelSheet f with
    | .error e => .error e
    | .ok rows =>
      if rows.isEmpty then .ok ⟨rows, f⟩
      else
        let inWin := inWinOf today days rows
        let filtered := (List.insertionSort dateLe inWin).map reserialize
        let newFile : XFile :=
          if archive_old && decide (inWin.length < (parsedOf rows).length) then
            .workbook [(SHEET_NAME, inWin.map reserialize)]
          else f
        .ok ⟨filtered, newFile⟩

/-- The data rows of the store sheet of a file (empty if absent). -/
def sheetRows (f : XFile) : List StoreRow :=
  match f with
  | .workbook sheets => (sheets.lookup SHEET_NAME).getD []
  | _ => []

/-- Row identity up to re-serialization of the date cell: the non-date cells
together with the parsed date. -/
def rowKey (r : StoreRow) : List String × Option Date :=
  (r.rest, parseDateStr r.fecha)

/-! ### Characterization of `get_recent_regulations` on a store file -/

theorem readExcelSheet_store (rows : List StoreRow) :
    readExcelSheet (.workbook [(SHEET_NAME, rows)]) = .ok rows := by
  simp [readExcelSheet, List.lookup]

theorem getRecent_store_eq (rows : List StoreRow) (today : Date) (days : Nat)
    (archive_old : Bool) (hne : rows ≠ []) :
    get_recent_regulations (.workbook [(SHEET_NAME, rows)]) today days archive_old =
      .ok ⟨(List.insertionSort dateLe (inWinOf today days rows)).map reserialize,
        if archive_old ∧ (inWinOf today days rows).length < (parsedOf rows).length then
          .workbook [(SHEET_NAME, (inWinOf today days rows).map reserialize)]
        else .workbook [(SHEET_NAME, rows)]⟩ := by
  have hemp : rows.isEmpty = false := by
    cases rows with
    | nil => exact absurd rfl hne
    | cons a t => rfl
  unfold get_recent_regulations
  rw [if_neg (by simp), readExcelSheet_store]
  simp only [hemp, Bool.false_eq_true, if_false, Bool.and_eq_true, decide_eq_true_eq]

/-! ### Helper lemmas about parsed rows, reserialization and sorting -/

theorem mem_parsedOf (rows : List StoreRow) (p : StoreRow × Date)
    (h : p ∈ parsedOf rows) :
    p.1 ∈ rows ∧ parseDateStr p.1.fecha = some p.2 := by
  unfold parsedOf at h
  rcases List.mem_filterMap.mp h with ⟨r, hr, heq⟩
  cases hp : parseDateStr r.fecha with
  | none => rw [hp] at heq; exact absurd heq (by simp)
  | some dt =>
    rw [hp] at heq
    have hpd : (r, dt) = p := Option.some.inj heq
    subst hpd
    exact ⟨hr, hp⟩

theorem parseable_mem_parsedOf (rows : List StoreRow) (p : StoreRow × Date)
    (h : p ∈ parsedOf rows) : p.2.parseable = true :=
  parseable_of_parse _ _ (mem_parsedOf rows p h).2

theorem parse_reserialize (p : StoreRow × Date) (h : p.2.parseable = true) :
    parseDateStr (reserialize p).fecha = some p.2 :=
  parse_serialize p.2 h

theorem rowKey_reserialize (p : StoreRow × Date) (h : p.2.parseable = true) :
    rowKey (reserialize p) = (p.1.rest, some p.2) := by
  unfold rowKey
  rw [parse_reserialize p h]
  rfl

theorem reserialize_idem (p : StoreRow × Date) :
    reserialize (reserialize p, p.2) = reserialize p := rfl

theorem parsedOf_map_reserialize (l : List (StoreRow × Date))
    (h : ∀ p ∈ l, p.2.parseable = true) :
    parsedOf (l.map reserialize) = l.map (fun p => (reserialize p, p.2)) := by
  induction l with
  | nil => rfl
  | cons p t ih =>
    have hp := h p (List.mem_cons_self p t)
    have ht : ∀ q ∈ t, q.2.parseable = true :=
      fun q hq => h q (List.mem_cons_of_mem p hq)
    unfold parsedOf
    rw [List.map_cons, List.filterMap_cons, parse_reserialize p hp]
    exact congrArg (List.cons (reserialize p, p.2)) (ih ht)

theorem orderedInsert_map_snd (g : StoreRow × Date → StoreRow × Date)
    (hg : ∀ p, (g p).2 = p.2) (a : StoreRow × Date) (l : List (StoreRow × Date)) :
    List.orderedInsert dateLe (g a) (l.map g) =
      (List.orderedInsert dateLe a l).map g := by
  induction l with
  | nil => rfl
  | cons b t ih =>
    by_cases h : dateLe a b
    · have h2 : dateLe (g a) (g b) := by
        unfold dateLe
        rw [hg, hg]
        exact h
      rw [List.map_cons, List.orderedInsert_of_le dateLe _ h2,
        List.orderedInsert_of_le dateLe _ h]
      rfl
    · have h2 : ¬ dateLe (g a) (g b) := by
        unfold dateLe
        rw [hg, hg]
        exact h
      simp only [List.map_cons, List.orderedInsert, if_neg h, if_neg h2]
      rw [ih]

theorem insertionSort_map_snd (g : StoreRow × Date → StoreRow × Date)
    (hg : ∀ p, (g p).2 = p.2) (l : List (StoreRow × Date)) :
    List.insertionSort dateLe (l.map g) = (List.insertionSort dateLe l).map g := by
  induction l with
  | nil => rfl
  | cons a t ih =>
    simp only [List.map_cons, List.insertionSort, ih]
    exact orderedInsert_map_snd g hg a (List.insertionSort dateLe t)

theorem filter_length_lt_of_exists {α : Type} (l : List α) (p : α → Bool)
    (h : ∃ a ∈ l, p a = false) : (l.filter p).length < l.length := by
  by_contra hc
  push_neg at hc
  have heq : l.filter p = l := (List.filter_sublist l).eq_of_length_le hc
  rcases h with ⟨a, ha, hpa⟩
  have hmem : a ∈ l.filter p := by
    rw [heq]
    exact ha
  have : p a = true := (List.mem_filter.mp hmem).2
  rw [hpa] at this
  exact absurd this (by simp)

theorem filter_eq_of_not_lt {α : Type} (l : List α) (p : α → Bool)
    (h : ¬ (l.filter p).length < l.length) : l.filter p = l :=
  (List.filter_sublist l).eq_of_length_le (Nat.le_of_not_lt h)

theorem sheetRows_store (l : List StoreRow) :
    sheetRows (.workbook [(SHEET_NAME, l)]) = l := by
  simp [sheetRows, List.lookup]

theorem map_rowKey_eq_parsedOf (rows : List StoreRow)
    (hparse : ∀ r ∈ rows, (parseDateStr r.fecha).isSome = true) :
    rows.map rowKey = (parsedOf rows).map (fun p => (p.1.rest, some p.2)) := by
  induction rows with
  | nil => rfl
  | cons r t ih =>
    have hr := hparse r (List.mem_cons_self r t)
    have ht : ∀ x ∈ t, (parseDateStr x.fecha).isSome = true :=
      fun x hx => hparse x (List.mem_cons_of_mem r hx)
    rcases Option.isSome_iff_exists.mp hr with ⟨dt, hdt⟩
    have hcons : parsedOf (r :: t) = (r, dt) :: parsedOf t := by
      unfold parsedOf
      rw [List.filterMap_cons, hdt]
      rfl
    rw [hcons, List.map_cons, List.map_cons, ih ht]
    have hk : rowKey r = (r.rest, some dt) := by
      unfold rowKey
      rw [hdt]
    rw [hk]

/-! ### Claim theorems for the windowed read (C1, C2, C9) -/

/-- C1: for every store sheet holding any rows and for every `days = D ≥ 1`,
`get_recent_regulations` drops the rows whose `Fecha Publicación` cell does
not parse as `DD/MM/YYYY` and returns exactly the remaining rows whose parsed
date lies in the inclusive window `[today − (D−1) days, today]`, sorted
ascending by that date, with the date cell re-serialized to its `DD/MM/YYYY`
string form. -/
theorem getRecent_returns_window_sorted
    (rows : List StoreRow) (today : Date) (days : Nat) (archive_old : Bool)
    (hdays : 1 ≤ days) :
    ∃ out : RecentOut, ∃ l : List (StoreRow × Date),
      get_recent_regulations (.workbook [(SHEET_NAME, rows)]) today days
        archive_old = .ok out ∧
      out.result = l.map reserialize ∧
      l.Sorted dateLe ∧
      l.Perm ((rows.filterMap
          (fun r => (parseDateStr r.fecha).map (fun dt => (r, dt)))).filter
        (fun p => inWindowB today days p.2)) ∧
      (∀ p ∈ l, today.toOrdinal - ((days : Int) - 1) ≤ p.2.toOrdinal ∧
        p.2.toOrdinal ≤ today.toOrdinal) := by
  cases hrows : rows with
  | nil =>
    refine ⟨⟨[], .workbook [(SHEET_NAME, [])]⟩, [], rfl, rfl, List.sorted_nil, ?_, ?_⟩
    · exact List.Perm.refl _
    · intro p hp
      exact absurd hp (List.not_mem_nil p)
  | cons a t =>
    rw [getRecent_store_eq _ today days archive_old (by simp)]
    refine ⟨_, List.insertionSort dateLe (inWinOf today days (a :: t)), rfl, rfl,
      List.sorted_insertionSort dateLe _, ?_, ?_⟩
    · exact List.perm_insertionSort dateLe _
    · intro p hp
      have hmem : p ∈ (parsedOf (a :: t)).filter (fun q => inWindowB today days q.2) :=
        (List.perm_insertionSort dateLe _).subset hp
      have hw : inWindowB today days p.2 = true := (List.mem_filter.mp hmem).2
      unfold inWindowB at hw
      simp only [Bool.and_eq_true, decide_eq_true_eq] at hw
      exact hw

/-- C2 (amended): after one `get_recent_regulations` call with
`archive_old=true` on a store sheet, the rows of the backing file whose date
parses are, up to re-serialization of the date cell, exactly the in-window
rows — when every row of the file parses this says the file holds exactly the
in-window rows, but rows with unparsable dates survive when no parsed row
fell outside the window, because only parsed rows are counted by the rewrite
trigger.  A second call with the same window and the same today returns the
same rows and leaves the file unchanged, and the full-overwrite rewrite
happens only when at least one parsed row fell outside the window. -/
theorem getRecent_archive_idempotent (rows : List StoreRow) (today : Date)
    (days : Nat) (hdays : 1 ≤ days) :
    ∃ out : RecentOut,
      get_recent_regulations (.workbook [(SHEET_NAME, rows)]) today days true
        = .ok out ∧
      ((∀ r ∈ rows, (parseDateStr r.fecha).isSome = true) →
        (sheetRows out.file).map rowKey =
          (inWinOf today days rows).map (fun p => (p.1.rest, some p.2))) ∧
      get_recent_regulations out.file today days true = .ok ⟨out.result, out.file⟩ ∧
      ((∀ p ∈ parsedOf rows, inWindowB today days p.2 = true) →
        out.file = .workbook [(SHEET_NAME, rows)]) ∧
      ((∃ p ∈ parsedOf rows, inWindowB today days p.2 = false) →
        out.file = .workbook
          [(SHEET_NAME, (inWinOf today days rows).map reserialize)]) := by
  cases hrows : rows with
  | nil =>
    refine ⟨⟨[], .workbook [(SHEET_NAME, [])]⟩, rfl, fun _ => rfl, rfl,
      fun _ => rfl, ?_⟩
    rintro ⟨p, hp, -⟩
    exact absurd hp (List.not_mem_nil p)
  | cons a t =>
    have hne : a :: t ≠ [] := by simp
    have hparseableW : ∀ p ∈ inWinOf today days (a :: t), p.2.parseable = true :=
      fun p hp => parseable_mem_parsedOf (a :: t) p (List.mem_filter.mp hp).1
    by_cases hlt :
        (inWinOf today days (a :: t)).length < (parsedOf (a :: t)).length
    · -- the rewrite is performed
      refine ⟨⟨(List.insertionSort dateLe (inWinOf today days (a :: t))).map
          reserialize,
        .workbook [(SHEET_NAME, (inWinOf today days (a :: t)).map reserialize)]⟩,
        ?_, ?_, ?_, ?_, fun _ => rfl⟩
      · rw [getRecent_store_eq _ today days true hne, if_pos ⟨rfl, hlt⟩]
      · intro _
        rw [sheetRows_store, List.map_map]
        exact List.map_congr_left
          (fun p hp => rowKey_reserialize p (hparseableW p hp))
      · -- second call: idempotence after the rewrite
        by_cases hW : inWinOf today days (a :: t) = []
        · rw [hW]
          rfl
        · have hSne : (inWinOf today days (a :: t)).map reserialize ≠ [] := by
            simpa using hW
          rw [getRecent_store_eq _ today days true hSne]
          have hpOf : parsedOf ((inWinOf today days (a :: t)).map reserialize) =
              (inWinOf today days (a :: t)).map (fun p => (reserialize p, p.2)) :=
            parsedOf_map_reserialize _ hparseableW
          have hwOf : inWinOf today days
              ((inWinOf today days (a :: t)).map reserialize) =
              (inWinOf today days (a :: t)).map (fun p => (reserialize p, p.2)) := by
            show (parsedOf ((inWinOf today days (a :: t)).map reserialize)).filter
              (fun p => inWindowB today days p.2) = _
            rw [hpOf]
            refine List.filter_eq_self.mpr ?_
            intro q hq
            rcases List.mem_map.mp hq with ⟨p, hpW, hpq⟩
            have : inWindowB today days p.2 = true :=
              (List.mem_filter.mp hpW).2
            rw [← hpq]
            exact this
          rw [hwOf, hpOf]
          have hsort : List.insertionSort dateLe
              ((inWinOf today days (a :: t)).map (fun p => (reserialize p, p.2))) =
              (List.insertionSort dateLe (inWinOf today days (a :: t))).map
                (fun p => (reserialize p, p.2)) :=
            insertionSort_map_snd (fun p => (reserialize p, p.2)) (fun _ => rfl) _
          rw [hsort, if_neg (by simp [List.length_map]), List.map_map]
          rfl
      · intro hall
        have : inWinOf today days (a :: t) = parsedOf (a :: t) :=
          List.filter_eq_self.mpr hall
        rw [this] at hlt
        exact absurd hlt (lt_irrefl _)
    · -- no rewrite: the file is left as it was
      refine ⟨⟨(List.insertionSort dateLe (inWinOf today days (a :: t))).map
          reserialize, .workbook [(SHEET_NAME, a :: t)]⟩, ?_, ?_, ?_,
        fun _ => rfl, ?_⟩
      · rw [getRecent_store_eq _ today days true hne,
          if_neg (fun hc => hlt hc.2)]
      · intro hparse
        rw [sheetRows_store]
        have hWP : inWinOf today days (a :: t) = parsedOf (a :: t) :=
          filter_eq_of_not_lt _ _ hlt
        rw [hWP]
        exact map_rowKey_eq_parsedOf (a :: t) hparse
      · rw [getRecent_store_eq _ today days true hne,
          if_neg (fun hc => hlt hc.2)]
      · rintro ⟨p, hp, hout⟩
        exact absurd (filter_length_lt_of_exists _ _ ⟨p, hp, hout⟩) hlt

/-- C2 counterexample: on a file holding one row whose date cell does not
parse next to one in-window row, a `read_recent(archive_old=true)` call with
`days=7` triggers no rewrite (the post-dropna mask drops nothing), so the
backing file afterwards still holds the unparsable row — it does not contain
exactly the rows whose date lies in the window. -/
theorem getRecent_archive_counterexample :
    get_recent_regulations
        (.workbook [(SHEET_NAME, [⟨"garbage", []⟩, ⟨"10/06/2025", []⟩])])
        ⟨10, 6, 2025⟩ 7 true =
      .ok ⟨[⟨"10/06/2025", []⟩],
        .workbook [(SHEET_NAME, [⟨"garbage", []⟩, ⟨"10/06/2025", []⟩])]⟩ ∧
    parseDateStr "garbage" = none ∧
    (⟨"garbage", []⟩ : StoreRow) ∈ sheetRows
      (.workbook [(SHEET_NAME, [⟨"garbage", []⟩, ⟨"10/06/2025", []⟩])]) := by
  refine ⟨?_, ?_, ?_⟩
  · rfl
  · rfl
  · decide

/-- C9: whenever `get_recent_regulations` performs the `archive_old=true`
rewrite (that is, at least one parsed row fell outside the window), the rows
whose `Fecha Publicación` cell does not parse are removed from the backing
file along with the out-of-window rows: the rewritten sheet is computed from
the frame left by the dropna step. -/
theorem getRecent_rewrite_drops_unparsable (rows : List StoreRow)
    (today : Date) (days : Nat)
    (hrew : ∃ p ∈ parsedOf rows, inWindowB today days p.2 = false) :
    ∃ out : RecentOut,
      get_recent_regulations (.workbook [(SHEET_NAME, rows)]) today days true
        = .ok out ∧
      out.file = .workbook
        [(SHEET_NAME, (inWinOf today days rows).map reserialize)] ∧
      (∀ r ∈ sheetRows out.file, (parseDateStr r.fecha).isSome = true) ∧
      (∀ r ∈ rows, parseDateStr r.fecha = none → r ∉ sheetRows out.file) := by
  have hne : rows ≠ [] := by
    rcases hrew with ⟨p, hp, -⟩
    intro h
    rw [h] at hp
    exact absurd hp (List.not_mem_nil p)
  have hlt : (inWinOf today days rows).length < (parsedOf rows).length :=
    filter_length_lt_of_exists _ _ hrew
  have hall : ∀ r ∈ sheetRows (XFile.workbook
      [(SHEET_NAME, (inWinOf today days rows).map reserialize)]),
      (parseDateStr r.fecha).isSome = true := by
    intro r hr
    rw [sheetRows_store] at hr
    rcases List.mem_map.mp hr with ⟨p, hpW, hpr⟩
    have hpar : p.2.parseable = true :=
      parseable_mem_parsedOf rows p (List.mem_filter.mp hpW).1
    rw [← hpr]
    rw [parse_reserialize p hpar]
    rfl
  refine ⟨⟨(List.insertionSort dateLe (inWinOf today days rows)).map reserialize,
    .workbook [(SHEET_NAME, (inWinOf today days rows).map reserialize)]⟩,
    ?_, rfl, hall, ?_⟩
  · rw [getRecent_store_eq _ today days true hne, if_pos ⟨rfl, hlt⟩]
  · intro r _ hnone hmem
    have := hall r hmem
    rw [hnone] at this
    exact absurd this (by simp)

/-! ### Witnesses for the windowed-read theorems -/

theorem getRecent_returns_window_sorted_witness :
    1 ≤ 7 ∧
    (∃ out : RecentOut, ∃ l : List (StoreRow × Date),
      get_recent_regulations
          (.workbook [(SHEET_NAME,
            [⟨"09/06/2025", ["a"]⟩, ⟨"01/01/2020", ["b"]⟩, ⟨"10/06/2025", ["c"]⟩])])
          ⟨10, 6, 2025⟩ 7 false = .ok out ∧
      out.result = l.map reserialize ∧
      l.Sorted dateLe ∧
      l.Perm (((
          [⟨"09/06/2025", ["a"]⟩, ⟨"01/01/2020", ["b"]⟩, ⟨"10/06/2025", ["c"]⟩]
            : List StoreRow).filterMap
          (fun r => (parseDateStr r.fecha).map (fun dt => (r, dt)))).filter
        (fun p => inWindowB ⟨10, 6, 2025⟩ 7 p.2)) ∧
      (∀ p ∈ l, (Date.toOrdinal ⟨10, 6, 2025⟩) - ((7 : Int) - 1) ≤ p.2.toOrdinal ∧
        p.2.toOrdinal ≤ Date.toOrdinal ⟨10, 6, 2025⟩)) :=
  ⟨by decide, getRecent_returns_window_sorted _ ⟨10, 6, 2025⟩ 7 false (by decide)⟩

theorem getRecent_archive_idempotent_witness :
    1 ≤ 7 ∧
    (∃ out : RecentOut,
      get_recent_regulations
          (.workbook [(SHEET_NAME, [⟨"01/01/2020", ["b"]⟩, ⟨"10/06/2025", ["c"]⟩])])
          ⟨10, 6, 2025⟩ 7 true = .ok out ∧
      ((∀ r ∈ ([⟨"01/01/2020", ["b"]⟩, ⟨"10/06/2025", ["c"]⟩] : List StoreRow),
          (parseDateStr r.fecha).isSome = true) →
        (sheetRows out.file).map rowKey =
          (inWinOf ⟨10, 6, 2025⟩ 7 [⟨"01/01/2020", ["b"]⟩, ⟨"10/06/2025", ["c"]⟩]).map
            (fun p => (p.1.rest, some p.2))) ∧
      get_recent_regulations out.file ⟨10, 6, 2025⟩ 7 true =
        .ok ⟨out.result, out.file⟩ ∧
      ((∀ p ∈ parsedOf [⟨"01/01/2020", ["b"]⟩, ⟨"10/06/2025", ["c"]⟩],
          inWindowB ⟨10, 6, 2025⟩ 7 p.2 = true) →
        out.file = .workbook
          [(SHEET_NAME, [⟨"01/01/2020", ["b"]⟩, ⟨"10/06/2025", ["c"]⟩])]) ∧
      ((∃ p ∈ parsedOf [⟨"01/01/2020", ["b"]⟩, ⟨"10/06/2025", ["c"]⟩],
          inWindowB ⟨10, 6, 2025⟩ 7 p.2 = false) →
        out.file = .workbook
          [(SHEET_NAME,
            (inWinOf ⟨10, 6, 2025⟩ 7
              [⟨"01/01/2020", ["b"]⟩, ⟨"10/06/2025", ["c"]⟩]).map reserialize)])) :=
  ⟨by decide, getRecent_archive_idempotent _ ⟨10, 6, 2025⟩ 7 (by decide)⟩

theorem getRecent_rewrite_drops_unparsable_witness :
    (∃ p ∈ parsedOf
        [⟨"garbage", []⟩, ⟨"01/01/2020", ["b"]⟩, ⟨"10/06/2025", ["c"]⟩],
      inWindowB ⟨10, 6, 2025⟩ 7 p.2 = false) ∧
    (∃ out : RecentOut,
      get_recent_regulations
          (.workbook [(SHEET_NAME,
            [⟨"garbage", []⟩, ⟨"01/01/2020", ["b"]⟩, ⟨"10/06/2025", ["c"]⟩])])
          ⟨10, 6, 2025⟩ 7 true = .ok out ∧
      out.file = .workbook
        [(SHEET_NAME,
          (inWinOf ⟨10, 6, 2025⟩ 7
            [⟨"garbage", []⟩, ⟨"01/01/2020", ["b"]⟩, ⟨"10/06/2025", ["c"]⟩]).map
              reserialize)] ∧
      (∀ r ∈ sheetRows out.file, (parseDateStr r.fecha).isSome = true) ∧
      (∀ r ∈ ([⟨"garbage", []⟩, ⟨"01/01/2020", ["b"]⟩, ⟨"10/06/2025", ["c"]⟩]
          : List StoreRow),
        parseDateStr r.fecha = none → r ∉ sheetRows out.file)) :=
  ⟨by decide, getRecent_rewrite_drops_unparsable _ ⟨10, 6, 2025⟩ 7 (by decide)⟩

/-! ## `save_regulations` (C3) and read failure modes (C6) -/

/-- One row of the pipeline frame that reaches `save_regulations`: the raw
scrape columns (`Título`, `Texto`, `Enlace`, `Fecha Publicación`) plus every
enrichment column added by the classifier. -/
structure PipelineRow where
  titulo : String
  texto : String
  enlace : String
  fecha : String
  tituloGenerado : String
  categoria : String
  relevancia : Nat
  razonamiento : String
  resumen : String
  puntosClave : String
deriving DecidableEq, Repr

/-- The eight columns selected by `save_regulations`
(`out_df = df[["Fecha Publicación", ..., "Enlace"]].copy()`). -/
structure EnrichedRecord where
  fecha : String
  tituloGenerado : String
  categoria : String
  relevancia : Nat
  razonamiento : String
  resumen : String
  puntosClave : String
  enlace : String
deriving DecidableEq, Repr

/-- The column selection `df[[...]]` of `save_regulations`. -/
def selectOutColumns (r : PipelineRow) : EnrichedRecord :=
  ⟨r.fecha, r.tituloGenerado, r.categoria, r.relevancia, r.razonamiento,
    r.resumen, r.puntosClave, r.enlace⟩

/-- A physical row of a written sheet: the header row or a data row. -/
inductive SavedRow where
  | header
  | data (rec : EnrichedRecord)
deriving DecidableEq, Repr

/-- A written workbook: named sheets of physical rows. -/
abbrev SaveWorkbook := List (String × List SavedRow)

/-- `if_sheet_exists="overlay"` writing at `startrow = ws.max_row`: the named
sheet keeps everything it had and gains the new rows after its last used
row. -/
def replaceSheet (wb : SaveWorkbook) (name : String) (rows : List SavedRow) :
    SaveWorkbook :=
  wb.map (fun s => if s.1 = name then (s.1, rows) else s)

/-- `storage.save_regulations`: no-op on an empty frame; on a missing file
(`none`) creates it with a header row and the records; on an existing file
appends the records after the last used row of the store sheet with
`header=False`; on an existing file without that sheet writes a fresh sheet
with header. -/
def save_regulations (df : List PipelineRow) (file : Option SaveWorkbook) :
    Option SaveWorkbook :=
  if df.isEmpty then file
  else
    let outRows : List SavedRow := df.map (fun r => .data (selectOutColumns r))
    match file with
    | none => some [(SHEET_NAME, .header :: outRows)]
    | some wb =>
      match wb.lookup SHEET_NAME with
      | some sheet => some (replaceSheet wb SHEET_NAME (sheet ++ outRows))
      | none => some (wb ++ [(SHEET_NAME, .header :: outRows)])

/-- Whether a physical row is the header row. -/
def isHeaderRow (r : SavedRow) : Bool :=
  match r with
  | .header => true
  | .data _ => false

/-- Whether a physical row is a data row. -/
def isDataRow (r : SavedRow) : Bool :=
  match r with
  | .header => false
  | .data _ => true

/-- The physical rows of the store sheet of a written file (empty if the file
or the sheet is absent). -/
def savedSheet (file : Option SaveWorkbook) : List SavedRow :=
  match file with
  | none => []
  | some wb => (wb.lookup SHEET_NAME).getD []

theorem savedSheet_store (l : List SavedRow) :
    savedSheet (some [(SHEET_NAME, l)]) = l := by
  simp [savedSheet, List.lookup]

theorem countP_data_map (df : List PipelineRow) :
    (df.map (fun r => SavedRow.data (selectOutColumns r))).countP isDataRow
      = df.length := by
  rw [List.countP_map]
  exact List.countP_eq_length.mpr (fun a _ => rfl)

theorem countP_header_map (df : List PipelineRow) :
    (df.map (fun r => SavedRow.data (selectOutColumns r))).countP isHeaderRow
      = 0 := by
  rw [List.countP_map]
  exact List.countP_eq_zero.mpr (fun a _ => by simp [isHeaderRow, Function.comp])

theorem save_regulations_fresh (A : List PipelineRow) (hA : A ≠ []) :
    save_regulations A none =
      some [(SHEET_NAME,
        .header :: A.map (fun r => SavedRow.data (selectOutColumns r)))] := by
  have : A.isEmpty = false := by
    cases A with
    | nil => exact absurd rfl hA
    | cons a t => rfl
  unfold save_regulations
  rw [this]
  rfl

/-- C3: `save_regulations` is a no-op on an empty frame; on a non-existent
file it creates the file with one header row followed by exactly the input
rows; on an existing store file it appends the records after the last used
row of the named sheet without rewriting or duplicating the header; hence
appending `A` records then `B` records to a fresh path yields a sheet with
exactly `A.length + B.length` data rows and (as soon as anything was written)
exactly one header row. -/
theorem save_regulations_append (A B : List PipelineRow)
    (file : Option SaveWorkbook) (s : List SavedRow) (hAB : A ≠ [] ∨ B ≠ []) :
    save_regulations [] file = file ∧
    (A ≠ [] → save_regulations A none =
      some [(SHEET_NAME,
        .header :: A.map (fun r => SavedRow.data (selectOutColumns r)))]) ∧
    (B ≠ [] → savedSheet (save_regulations B (some [(SHEET_NAME, s)])) =
      s ++ B.map (fun r => SavedRow.data (selectOutColumns r))) ∧
    (savedSheet (save_regulations B (save_regulations A none))).countP isDataRow
      = A.length + B.length ∧
    (savedSheet (save_regulations B (save_regulations A none))).countP
      isHeaderRow = 1 := by
  have hBapp : ∀ t : List SavedRow, B ≠ [] →
      savedSheet (save_regulations B (some [(SHEET_NAME, t)])) =
        t ++ B.map (fun r => SavedRow.data (selectOutColumns r)) := by
    intro t hB
    have hBe : B.isEmpty = false := by
      cases B with
      | nil => exact absurd rfl hB
      | cons b u => rfl
    unfold save_regulations
    rw [hBe]
    simp only [Bool.false_eq_true, if_false]
    have hlook : List.lookup SHEET_NAME [(SHEET_NAME, t)] = some t := by
      simp [List.lookup]
    rw [hlook]
    show savedSheet (some (replaceSheet [(SHEET_NAME, t)] SHEET_NAME _)) = _
    simp [replaceSheet, savedSheet, List.lookup]
  refine ⟨rfl, save_regulations_fresh A, hBapp s, ?_, ?_⟩
  · cases hA : A with
    | nil =>
      have hB : B ≠ [] := by
        rcases hAB with h | h
        · exact absurd hA h
        · exact h
      show (savedSheet (save_regulations B none)).countP isDataRow = _
      rw [save_regulations_fresh B hB, savedSheet_store, List.countP_cons]
      rw [countP_data_map]
      simp [isDataRow]
    | cons a t =>
      rw [save_regulations_fresh (a :: t) (by simp)]
      cases hBc : B with
      | nil =>
        show ((savedSheet (some [(SHEET_NAME, _)]))).countP isDataRow = _
        rw [savedSheet_store, List.countP_cons, countP_data_map]
        simp [isDataRow]
      | cons b u =>
        rw [← hBc, hBapp _ (by rw [hBc]; simp), List.countP_append,
          List.countP_cons, countP_data_map, countP_data_map]
        simp [isDataRow]
  · cases hA : A with
    | nil =>
      have hB : B ≠ [] := by
        rcases hAB with h | h
        · exact absurd hA h
        · exact h
      show (savedSheet (save_regulations B none)).countP isHeaderRow = 1
      rw [save_regulations_fresh B hB, savedSheet_store, List.countP_cons,
        countP_header_map]
      simp [isHeaderRow]
    | cons a t =>
      rw [save_regulations_fresh (a :: t) (by simp)]
      cases hBc : B with
      | nil =>
        show ((savedSheet (some [(SHEET_NAME, _)]))).countP isHeaderRow = 1
        rw [savedSheet_store, List.countP_cons, countP_header_map]
        simp [isHeaderRow]
      | cons b u =>
        rw [← hBc, hBapp _ (by rw [hBc]; simp), List.countP_append,
          List.countP_cons, countP_header_map, countP_header_map]
        simp [isHeaderRow]

theorem save_regulations_append_witness :
    (([⟨"t", "x", "e", "01/01/2025", "tg", "c", 80, "rz", "rs", "pc"⟩]
        : List PipelineRow) ≠ [] ∨
      ([⟨"t2", "x2", "e2", "02/01/2025", "tg2", "c2", 90, "rz2", "rs2", "pc2"⟩]
        : List PipelineRow) ≠ []) ∧
    (save_regulations [] (none : Option SaveWorkbook) = none ∧
    (([⟨"t", "x", "e", "01/01/2025", "tg", "c", 80, "rz", "rs", "pc"⟩]
        : List PipelineRow) ≠ [] →
      save_regulations
        [⟨"t", "x", "e", "01/01/2025", "tg", "c", 80, "rz", "rs", "pc"⟩] none =
      some [(SHEET_NAME, .header ::
        ([⟨"t", "x", "e", "01/01/2025", "tg", "c", 80, "rz", "rs", "pc"⟩]
          : List PipelineRow).map
          (fun r => SavedRow.data (selectOutColumns r)))]) ∧
    (([⟨"t2", "x2", "e2", "02/01/2025", "tg2", "c2", 90, "rz2", "rs2", "pc2"⟩]
        : List PipelineRow) ≠ [] →
      savedSheet (save_regulations
        [⟨"t2", "x2", "e2", "02/01/2025", "tg2", "c2", 90, "rz2", "rs2", "pc2"⟩]
        (some [(SHEET_NAME, [SavedRow.header])])) =
      [SavedRow.header] ++
        ([⟨"t2", "x2", "e2", "02/01/2025", "tg2", "c2", 90, "rz2", "rs2", "pc2"⟩]
          : List PipelineRow).map
          (fun r => SavedRow.data (selectOutColumns r))) ∧
    (savedSheet (save_regulations
        [⟨"t2", "x2", "e2", "02/01/2025", "tg2", "c2", 90, "rz2", "rs2", "pc2"⟩]
        (save_regulations
          [⟨"t", "x", "e", "01/01/2025", "tg", "c", 80, "rz", "rs", "pc"⟩]
          none))).countP isDataRow = 1 + 1 ∧
    (savedSheet (save_regulations
        [⟨"t2", "x2", "e2", "02/01/2025", "tg2", "c2", 90, "rz2", "rs2", "pc2"⟩]
        (save_regulations
          [⟨"t", "x", "e", "01/01/2025", "tg", "c", 80, "rz", "rs", "pc"⟩]
          none))).countP isHeaderRow = 1) :=
  ⟨by simp, save_regulations_append _ _ none [SavedRow.header] (by simp)⟩

/-- C6: a read (`load_regulations` or `get_recent_regulations`) on a missing
file returns an empty result without raising, while a read on an existing
file that is not a well-formed spreadsheet, or a workbook lacking the store
sheet, raises, with the error surfaced to the caller. -/
theorem read_missing_empty_malformed_raises (today : Date) (days : Nat)
    (archive_old : Bool) (sheets : List (String × List StoreRow))
    (hs : sheets.lookup SHEET_NAME = none) :
    load_regulations .missing = .ok [] ∧
    get_recent_regulations .missing today days archive_old = .ok ⟨[], .missing⟩ ∧
    load_regulations .malformed = .error () ∧
    get_recent_regulations .malformed today days archive_old = .error () ∧
    load_regulations (.workbook sheets) = .error () ∧
    get_recent_regulations (.workbook sheets) today days archive_old
      = .error () := by
  have hread : readExcelSheet (.workbook sheets) = .error () := by
    have hdef : readExcelSheet (.workbook sheets) =
        match sheets.lookup SHEET_NAME with
        | some rows => Except.ok rows
        | none => Except.error () := rfl
    rw [hdef, hs]
  refine ⟨rfl, rfl, rfl, rfl, ?_, ?_⟩
  · show readExcelSheet (.workbook sheets) = .error ()
    exact hread
  · unfold get_recent_regulations
    rw [if_neg (by simp), hread]

theorem read_missing_empty_malformed_raises_witness :
    (([] : List (String × List StoreRow)).lookup SHEET_NAME = none) ∧
    (load_regulations .missing = .ok [] ∧
    get_recent_regulations .missing ⟨10, 6, 2025⟩ 7 true = .ok ⟨[], .missing⟩ ∧
    load_regulations .malformed = .error () ∧
    get_recent_regulations .malformed ⟨10, 6, 2025⟩ 7 true = .error () ∧
    load_regulations (.workbook []) = .error () ∧
    get_recent_regulations (.workbook []) ⟨10, 6, 2025⟩ 7 true = .error ()) :=
  ⟨rfl, read_missing_empty_malformed_raises ⟨10, 6, 2025⟩ 7 true [] rfl⟩

/-! ## The classifier pipeline (`src/classifier.py`) — C4, C5, C10

The three remote structured-output calls are oracles: for a given input text
they either return the parsed response model or raise (`Except.error`).  The
`try/except` bodies of `classify_text`, `summarize_text` and `create_title`
are embedded directly; `classify_regulations` additionally returns the
caller's frame after its in-place column additions and the ordered log of
remote calls it makes. -/

/-- Parsed `RelevanceClassification` response (`relevance_score` is an `int`
constrained to `[0, 100]`; the embedding uses `Nat`). -/
structure ClassifyResult where
  relevance_score : Nat
  reasoning : String
deriving DecidableEq, Repr

/-- Parsed `TextSummary` response. -/
structure SummaryResult where
  summary : String
  key_points : List String
deriving DecidableEq, Repr

/-- Parsed `TitleGeneration` response. -/
structure TitleResult where
  title : String
  category : String
deriving DecidableEq, Repr

/-- `classifier.classify_text`: returns the parsed score and reasoning, and
maps a raised exception to the safe default
`{"relevance_score": 0, "reasoning": "Error in processing"}`. -/
def classify_text (text : String) (outcome : Except String ClassifyResult) :
    ClassifyResult :=
  match outcome with
  | .ok r => ⟨r.relevance_score, r.reasoning⟩
  | .error _ => ⟨0, "Error in processing"⟩

/-- `classifier.summarize_text`: parsed summary/key points, defaulting to
`{"summary": "Error en resumen", "key_points": []}` on an exception. -/
def summarize_text (text : String) (outcome : Except String SummaryResult) :
    SummaryResult :=
  match outcome with
  | .ok r => ⟨r.summary, r.key_points⟩
  | .error _ => ⟨"Error en resumen", []⟩

/-- `classifier.create_title`: parsed title/category, defaulting to
`{"title": "Título no disponible", "category": "Sin categoría"}` on an
exception. -/
def create_title (text : String) (outcome : Except String TitleResult) :
    TitleResult :=
  match outcome with
  | .ok r => ⟨r.title, r.category⟩
  | .error _ => ⟨"Título no disponible", "Sin categoría"⟩

/-- One scraped notice row (`Título`, `Texto`, `Enlace`,
`Fecha Publicación`). -/
structure NoticeRow where
  titulo : String
  texto : String
  enlace : String
  fecha : String
deriving DecidableEq, Repr

/-- A notice row after the in-place addition of the `Relevancia` and
`Razonamiento` columns. -/
structure ClassifiedRow where
  base : NoticeRow
  relevancia : Nat
  razonamiento : String
deriving DecidableEq, Repr

/-- A surviving row after enrichment with summary, joined key points,
generated title and category. -/
structure EnrichedRow where
  base : NoticeRow
  relevancia : Nat
  razonamiento : String
  resumen : String
  puntosClave : String
  tituloGenerado : String
  categoria : String
deriving DecidableEq, Repr

/-- A remote LLM call made by `classify_regulations`, tagged with the text it
was made for. -/
inductive LlmCall where
  | classifyCall (text : String)
  | summarizeCall (text : String)
  | titleCall (text : String)
deriving DecidableEq, Repr

/-- Result of `classify_regulations`: the caller's frame after the in-place
column additions, the returned filtered frame, and the remote calls in the
order the source makes them. -/
structure ClassifyRegsOut where
  dfAfter : List ClassifiedRow
  result : List EnrichedRow
  calls : List LlmCall
deriving DecidableEq, Repr

/-- The per-row classification
(`df["Texto"].apply(lambda x: classify_text(client, x, model))` together with
the `Relevancia` / `Razonamiento` column assignments). -/
def addClassification (cls : String → Except String ClassifyResult)
    (r : NoticeRow) : ClassifiedRow :=
  ⟨r, (classify_text r.texto (cls r.texto)).relevance_score,
    (classify_text r.texto (cls r.texto)).reasoning⟩

/-- Sort relation of `sort_values(by="Relevancia", ascending=False)`. -/
def relGe (a b : ClassifiedRow) : Prop := b.relevancia ≤ a.relevancia

instance : DecidableRel relGe :=
  fun a b => inferInstanceAs (Decidable (b.relevancia ≤ a.relevancia))

instance : IsTotal ClassifiedRow relGe :=
  ⟨fun a b => le_total b.relevancia a.relevancia⟩

instance : IsTrans ClassifiedRow relGe :=
  ⟨fun _ _ _ h1 h2 => le_trans h2 h1⟩

/-- The enrichment applied to one surviving row: summary, semicolon-joined
key points, generated title and category. -/
def enrichRow (sm : String → Except String SummaryResult)
    (tl : String → Except String TitleResult) (r : ClassifiedRow) :
    EnrichedRow :=
  ⟨r.base, r.relevancia, r.razonamiento,
    (summarize_text r.base.texto (sm r.base.texto)).summary,
    String.intercalate "; "
      (summarize_text r.base.texto (sm r.base.texto)).key_points,
    (create_title r.base.texto (tl r.base.texto)).title,
    (create_title r.base.texto (tl r.base.texto)).category⟩

/-- `classifier.classify_regulations`: classification is applied to every
row, the frame is filtered to `Relevancia > threshold`, sorted score
descending, truncated to at most five rows, and only that subset is
summarized and titled; the empty frame short-circuits. -/
def classify_regulations (df : List NoticeRow)
    (cls : String → Except String ClassifyResult)
    (sm : String → Except String SummaryResult)
    (tl : String → Except String TitleResult)
    (relevance_threshold : Nat) : ClassifyRegsOut :=
  if df.isEmpty then ⟨[], [], []⟩
  else
    let dfC := df.map (addClassification cls)
    let relevante := (List.insertionSort relGe
      (dfC.filter (fun r => relevance_threshold < r.relevancia))).take 5
    if relevante.isEmpty then
      ⟨dfC, [], df.map (fun r => .classifyCall r.texto)⟩
    else
      ⟨dfC, relevante.map (enrichRow sm tl),
        df.map (fun r => .classifyCall r.texto) ++
          relevante.map (fun r => .summarizeCall r.base.texto) ++
          relevante.map (fun r => .titleCall r.base.texto)⟩

theorem classify_regulations_eq (df : List NoticeRow)
    (cls : String → Except String ClassifyResult)
    (sm : String → Except String SummaryResult)
    (tl : String → Except String TitleResult)
    (t : Nat) (hne : df ≠ []) :
    classify_regulations df cls sm tl t =
      ⟨df.map (addClassification cls),
        ((List.insertionSort relGe ((df.map (addClassification cls)).filter
          (fun r => t < r.relevancia))).take 5).map (enrichRow sm tl),
        df.map (fun r => .classifyCall r.texto) ++
          ((List.insertionSort relGe ((df.map (addClassification cls)).filter
            (fun r => t < r.relevancia))).take 5).map
            (fun r => .summarizeCall r.base.texto) ++
          ((List.insertionSort relGe ((df.map (addClassification cls)).filter
            (fun r => t < r.relevancia))).take 5).map
            (fun r => .titleCall r.base.texto)⟩ := by
  have hemp : df.isEmpty = false := by
    cases df with
    | nil => exact absurd rfl hne
    | cons a u => rfl
  unfold classify_regulations
  rw [hemp]
  simp only [Bool.false_eq_true, if_false]
  by_cases hrel : ((List.insertionSort relGe ((df.map (addClassification cls)).filter
      (fun r => t < r.relevancia))).take 5).isEmpty
  · rw [if_pos hrel]
    have : (List.insertionSort relGe ((df.map (addClassification cls)).filter
        (fun r => t < r.relevancia))).take 5 = [] := by
      cases h : (List.insertionSort relGe ((df.map (addClassification cls)).filter
          (fun r => t < r.relevancia))).take 5 with
      | nil => rfl
      | cons x xs =>
        rw [h] at hrel
        exact absurd hrel (by simp)
    rw [this]
    simp
  · rw [if_neg hrel]

/-- C5: when the remote LLM call raises, `classify_text` returns
`{"relevance_score": 0, "reasoning": "Error in processing"}` and
`summarize_text` / `create_title` return their placeholder defaults instead
of propagating the exception, so a single call failure degrades to "not
relevant" rather than aborting the batch. -/
theorem llm_errors_degrade_to_defaults (text e : String) :
    classify_text text (.error e) = ⟨0, "Error in processing"⟩ ∧
    summarize_text text (.error e) = ⟨"Error en resumen", []⟩ ∧
    create_title text (.error e)
      = ⟨"Título no disponible", "Sin categoría"⟩ :=
  ⟨rfl, rfl, rfl⟩

/-- C4: `classify_regulations` calls classify once per notice (in frame
order), keeps exactly the notices scoring strictly above the threshold,
sorts the survivors score-descending, truncates to at most five, and calls
summarize and title generation exactly for that truncated subset, in that
order; when no notice clears the threshold the result is empty. -/
theorem classify_regulations_pipeline (df : List NoticeRow)
    (cls : String → Except String ClassifyResult)
    (sm : String → Except String SummaryResult)
    (tl : String → Except String TitleResult)
    (t : Nat) (hne : df ≠ []) :
    ∃ sorted : List ClassifiedRow,
      sorted.Perm ((df.map (addClassification cls)).filter
        (fun r => t < r.relevancia)) ∧
      sorted.Sorted relGe ∧
      (classify_regulations df cls sm tl t).result =
        (sorted.take 5).map (enrichRow sm tl) ∧
      (classify_regulations df cls sm tl t).calls =
        df.map (fun r => .classifyCall r.texto) ++
          (sorted.take 5).map (fun r => .summarizeCall r.base.texto) ++
          (sorted.take 5).map (fun r => .titleCall r.base.texto) ∧
      (∀ r ∈ (classify_regulations df cls sm tl t).result,
        t < r.relevancia) ∧
      ((∀ r ∈ df.map (addClassification cls), r.relevancia ≤ t) →
        (classify_regulations df cls sm tl t).result = []) := by
  refine ⟨List.insertionSort relGe ((df.map (addClassification cls)).filter
    (fun r => t < r.relevancia)), List.perm_insertionSort relGe _,
    List.sorted_insertionSort relGe _, ?_, ?_, ?_, ?_⟩
  · rw [classify_regulations_eq df cls sm tl t hne]
  · rw [classify_regulations_eq df cls sm tl t hne]
  · intro r hr
    rw [classify_regulations_eq df cls sm tl t hne] at hr
    rcases List.mem_map.mp hr with ⟨q, hq, hqr⟩
    have hqs : q ∈ List.insertionSort relGe ((df.map (addClassification cls)).filter
        (fun r => t < r.relevancia)) := List.take_subset 5 _ hq
    have hqf : q ∈ (df.map (addClassification cls)).filter
        (fun r => t < r.relevancia) :=
      (List.perm_insertionSort relGe _).subset hqs
    have hlt : t < q.relevancia := by
      have := (List.mem_filter.mp hqf).2
      simpa using this
    rw [← hqr]
    exact hlt
  · intro hall
    rw [classify_regulations_eq df cls sm tl t hne]
    have hfil : (df.map (addClassification cls)).filter
        (fun r => t < r.relevancia) = [] := by
      refine List.filter_eq_nil_iff.mpr ?_
      intro r hr
      have := hall r hr
      simp
      omega
    rw [hfil]
    rfl

/-- C10: `classify_regulations` mutates the caller's frame in place, adding
the `Relevancia` and `Razonamiento` columns to it — embedded as explicit
state passing: the frame handed back carries, for every row including the
ones at or below the threshold, the classification of that row's text, with
the original row content unchanged. -/
theorem classify_regulations_mutates_input (df : List NoticeRow)
    (cls : String → Except String ClassifyResult)
    (sm : String → Except String SummaryResult)
    (tl : String → Except String TitleResult)
    (t : Nat) (hne : df ≠ []) :
    (classify_regulations df cls sm tl t).dfAfter =
      df.map (addClassification cls) ∧
    ((classify_regulations df cls sm tl t).dfAfter).map (fun r => r.base) = df ∧
    ∀ r ∈ (classify_regulations df cls sm tl t).dfAfter,
      r.relevancia =
        (classify_text r.base.texto (cls r.base.texto)).relevance_score ∧
      r.razonamiento =
        (classify_text r.base.texto (cls r.base.texto)).reasoning := by
  have heq := classify_regulations_eq df cls sm tl t hne
  refine ⟨by rw [heq], ?_, ?_⟩
  · rw [heq]
    show (df.map (addClassification cls)).map (fun r => r.base) = df
    rw [List.map_map]
    exact List.map_id' df
  · intro r hr
    rw [heq] at hr
    rcases List.mem_map.mp hr with ⟨x, _, hxr⟩
    rw [← hxr]
    exact ⟨rfl, rfl⟩

/-- Oracle used by the classifier witnesses: scores 95, 40, 71, 10 for the
four texts of the example. -/
def clsOracle (s : String) : Except String ClassifyResult :=
  if s = "a" then .ok ⟨95, "ra"⟩
  else if s = "b" then .ok ⟨40, "rb"⟩
  else if s = "c" then .ok ⟨71, "rc"⟩
  else .ok ⟨10, "rd"⟩

/-- Oracle used by the classifier witnesses for summaries. -/
def smOracle (s : String) : Except String SummaryResult :=
  if s = "a" then .ok ⟨"sa", ["k1", "k2"]⟩ else .error "boom"

/-- Oracle used by the classifier witnesses for titles. -/
def tlOracle (s : String) : Except String TitleResult :=
  if s = "a" then .ok ⟨"ta", "ca"⟩ else .error "boom"

/-- The four-notice frame of the classifier witnesses. -/
def noticeDf : List NoticeRow :=
  [⟨"n1", "a", "e1", "10/06/2025"⟩, ⟨"n2", "b", "e2", "10/06/2025"⟩,
    ⟨"n3", "c", "e3", "10/06/2025"⟩, ⟨"n4", "d", "e4", "10/06/2025"⟩]

theorem classify_regulations_pipeline_witness :
    noticeDf ≠ [] ∧
    (∃ sorted : List ClassifiedRow,
      sorted.Perm ((noticeDf.map (addClassification clsOracle)).filter
        (fun r => 70 < r.relevancia)) ∧
      sorted.Sorted relGe ∧
      (classify_regulations noticeDf clsOracle smOracle tlOracle 70).result =
        (sorted.take 5).map (enrichRow smOracle tlOracle) ∧
      (classify_regulations noticeDf clsOracle smOracle tlOracle 70).calls =
        noticeDf.map (fun r => .classifyCall r.texto) ++
          (sorted.take 5).map (fun r => .summarizeCall r.base.texto) ++
          (sorted.take 5).map (fun r => .titleCall r.base.texto) ∧
      (∀ r ∈ (classify_regulations noticeDf clsOracle smOracle tlOracle 70).result,
        70 < r.relevancia) ∧
      ((∀ r ∈ noticeDf.map (addClassification clsOracle), r.relevancia ≤ 70) →
        (classify_regulations noticeDf clsOracle smOracle tlOracle 70).result
          = [])) :=
  ⟨by simp [noticeDf],
    classify_regulations_pipeline noticeDf clsOracle smOracle tlOracle 70
      (by simp [noticeDf])⟩

theorem classify_regulations_mutates_input_witness :
    noticeDf ≠ [] ∧
    ((classify_regulations noticeDf clsOracle smOracle tlOracle 70).dfAfter =
      noticeDf.map (addClassification clsOracle) ∧
    ((classify_regulations noticeDf clsOracle smOracle tlOracle 70).dfAfter).map
      (fun r => r.base) = noticeDf ∧
    ∀ r ∈ (classify_regulations noticeDf clsOracle smOracle tlOracle 70).dfAfter,
      r.relevancia =
        (classify_text r.base.texto (clsOracle r.base.texto)).relevance_score ∧
      r.razonamiento =
        (classify_text r.base.texto (clsOracle r.base.texto)).reasoning) :=
  ⟨by simp [noticeDf],
    classify_regulations_mutates_input noticeDf clsOracle smOracle tlOracle 70
      (by simp [noticeDf])⟩

/-! ## The email reporter (`src/email_service.py`) and the weekly selection
(`send_weekly_report_prefect.py`) — C7, C8

A report row carries the four string cells the renderer reads plus the
numeric `Relevancia` cell (`none` embeds NaN); the frame records whether the
`Relevancia` column is present at all.  The chat completion of the executive
summary is an oracle: `.ok content` is the returned message text, `.error`
a raised exception. -/

/-- One row of the frame the reporter renders. -/
structure EmailRow where
  tituloGenerado : String
  fecha : String
  resumen : String
  enlace : String
  relevancia : Option ℚ
deriving DecidableEq, Repr

/-- A rendered frame: whether the `Relevancia` column is present, and the
rows. -/
structure EmailDf where
  hasRel : Bool
  rows : List EmailRow
deriving DecidableEq, Repr

/-- Comparison of two `Relevancia` cells for descending order with NaN
(`none`) after every number, as `na_position="last"` sorts. -/
def optDescB : Option ℚ → Option ℚ → Bool
  | some x, some y => decide (y ≤ x)
  | some _, none => true
  | none, some _ => false
  | none, none => true

/-- Boolean form of the key of `sort_values(by="Relevancia",
ascending=False, na_position="last")`. -/
def relDescB (a b : EmailRow) : Bool := optDescB a.relevancia b.relevancia

/-- The sort relation used by the reporter and the weekly selection. -/
def relDescLe (a b : EmailRow) : Prop := relDescB a b = true

instance : DecidableRel relDescLe :=
  fun a b => inferInstanceAs (Decidable (relDescB a b = true))

theorem optDescB_total (o p : Option ℚ) :
    optDescB o p = true ∨ optDescB p o = true := by
  rcases o with _ | x <;> rcases p with _ | y <;> simp [optDescB]
  exact le_total y x

theorem optDescB_trans (o p q : Option ℚ) (h1 : optDescB o p = true)
    (h2 : optDescB p q = true) : optDescB o q = true := by
  rcases o with _ | x <;> rcases p with _ | y <;> rcases q with _ | z <;>
    simp_all [optDescB]
  exact le_trans h2 h1

instance : IsTotal EmailRow relDescLe :=
  ⟨fun a b => optDescB_total a.relevancia b.relevancia⟩

instance : IsTrans EmailRow relDescLe :=
  ⟨fun _ _ _ h1 h2 => optDescB_trans _ _ _ h1 h2⟩

/-- `email_service.build_top_resolutions_payload`: empty frame on empty
input; otherwise the rows, sorted score-descending (NaN last) when the
`Relevancia` column is present, truncated to the first `top_n` (the column
projection and `fillna("")` keep every field the fallback and the LLM
payload read). -/
def build_top_resolutions_payload (df : EmailDf) (top_n : Nat) :
    List EmailRow :=
  if df.rows.isEmpty then []
  else
    (if df.hasRel then List.insertionSort relDescLe df.rows else df.rows).take
      top_n

/-- One `<li>` line of the fallback list; title and link fall back to their
placeholders when falsy. -/
def fallbackItem (r : EmailRow) : String :=
  let title := if r.tituloGenerado = "" then "(Sin título)" else r.tituloGenerado
  let link := if r.enlace = "" then "#" else r.enlace
  "<li style=\"margin-bottom:6px;\"><a href=\"" ++ link ++
    "\" style=\"text-decoration:none; font-weight:600; color:#1b73c4;\">" ++
    title ++ "</a> — " ++ r.fecha ++ "</li>"

/-- The executive-summary HTML of the fallback: header, count sentence over
the whole frame, ordered list of the items, stripped like the Python
f-string. -/
def resumenTemplate (total : Nat) (period_label : String) (shown : Nat)
    (items : List String) : String :=
  let paragraph :=
    "\n    <p style=\"margin:0 0 12px 0; line-height:1.6; color:#34495e;\">\n        Este informe reúne "
      ++ toString total ++ " resoluciones relevantes de " ++ period_label
      ++ ". A continuación, las " ++ toString shown
      ++ " de mayor importancia:\n    </p>\n    "
  ("\n    <div style=\"background:#f7fbff; border:1px solid #d6e9ff; padding:16px; border-radius:8px; margin:16px 0 24px 0;\">\n        <h2 style=\"margin:0 0 8px 0; color:#1f3b57; font-size:18px;\">Resumen ejecutivo</h2>\n        "
    ++ paragraph
    ++ "\n        <ol style=\"margin:0; padding-left:20px;\">\n            "
    ++ String.join items
    ++ "\n        </ol>\n    </div>\n    ").trim

/-- `email_service.generar_resumen_ejecutivo_fallback`. -/
def generar_resumen_ejecutivo_fallback (df : EmailDf) (period_label : String)
    (top_n : Nat) : String :=
  if df.rows.isEmpty then ""
  else
    let top := build_top_resolutions_payload df top_n
    resumenTemplate df.rows.length period_label (min top_n top.length)
      (top.map fallbackItem)

/-- One record of the compact payload handed to the LLM prompt. -/
structure LlmRecord where
  title : String
  date : String
  summary : String
  url : String
  relevance : Option ℚ
deriving DecidableEq, Repr

/-- The record built for one payload row (`str(...)` truncations; relevance
only when the column is present). -/
def mkLlmRecord (hasRel : Bool) (r : EmailRow) : LlmRecord :=
  ⟨r.tituloGenerado.take 220, r.fecha.take 20, r.resumen.take 600,
    r.enlace.take 400, if hasRel then r.relevancia else none⟩

/-- Result of `generar_resumen_ejecutivo_llm`: the HTML snippet and the
payload records the prompt was fed. -/
structure LlmSummaryOut where
  html : String
  fed : List LlmRecord
deriving DecidableEq, Repr

/-- `email_service.generar_resumen_ejecutivo_llm`: empty frame returns the
empty snippet; a raised completion or an empty (after `strip`) generated
text falls back to the local template; otherwise the generated text is
wrapped in the summary block. -/
def generar_resumen_ejecutivo_llm (df : EmailDf) (period_label : String)
    (top_n : Nat) (outcome : Except String String) : LlmSummaryOut :=
  if df.rows.isEmpty then ⟨"", []⟩
  else
    let top := build_top_resolutions_payload df top_n
    let fed := top.map (mkLlmRecord df.hasRel)
    match outcome with
    | .error _ =>
      ⟨generar_resumen_ejecutivo_fallback df period_label top_n, fed⟩
    | .ok content =>
      let generated := content.trim
      if generated = "" then
        ⟨generar_resumen_ejecutivo_fallback df period_label top_n, fed⟩
      else
        ⟨("\n        <div style=\"background:#f7fbff; border:1px solid #d6e9ff; padding:16px; border-radius:8px; margin:16px 0 24px 0;\">\n            <h2 style=\"margin:0 0 8px 0; color:#1f3b57; font-size:18px;\">Resumen ejecutivo</h2>\n            "
          ++ generated ++ "\n        </div>\n        ").trim, fed⟩

/-- The top-N selection in the spec's words: sort by score descending if the
column is present, else keep row order; take the first N. -/
def specScoreDesc (a b : EmailRow) : Prop :=
  b.relevancia.getD 0 ≤ a.relevancia.getD 0

instance : DecidableRel specScoreDesc :=
  fun a b =>
    inferInstanceAs (Decidable (b.relevancia.getD 0 ≤ a.relevancia.getD 0))

/-- The spec-side top-N selection, to compare against
`build_top_resolutions_payload`. -/
def specTopSelection (df : EmailDf) (top_n : Nat) : List EmailRow :=
  (if df.hasRel then List.insertionSort specScoreDesc df.rows else df.rows).take
    top_n

/-! ### Congruence of insertion sort under pointwise-agreeing relations -/

theorem orderedInsert_congr_mem {α : Type} (r s : α → α → Prop)
    [DecidableRel r] [DecidableRel s] (a : α) (l : List α)
    (h : ∀ x ∈ a :: l, ∀ y ∈ a :: l, (r x y ↔ s x y)) :
    List.orderedInsert r a l = List.orderedInsert s a l := by
  induction l with
  | nil => rfl
  | cons b t ih =>
    have hab : r a b ↔ s a b :=
      h a (List.mem_cons_self a (b :: t)) b
        (List.mem_cons_of_mem a (List.mem_cons_self b t))
    by_cases hr : r a b
    · rw [List.orderedInsert_of_le r t hr,
        List.orderedInsert_of_le s t (hab.mp hr)]
    · have hs : ¬ s a b := fun hsb => hr (hab.mpr hsb)
      simp only [List.orderedInsert, if_neg hr, if_neg hs]
      have hsub : ∀ x ∈ a :: t, ∀ y ∈ a :: t, (r x y ↔ s x y) := by
        intro x hx y hy
        have hx2 : x ∈ a :: b :: t := by
          rcases List.mem_cons.mp hx with h1 | h1
          · rw [h1]
            exact List.mem_cons_self a (b :: t)
          · exact List.mem_cons_of_mem a (List.mem_cons_of_mem b h1)
        have hy2 : y ∈ a :: b :: t := by
          rcases List.mem_cons.mp hy with h1 | h1
          · rw [h1]
            exact List.mem_cons_self a (b :: t)
          · exact List.mem_cons_of_mem a (List.mem_cons_of_mem b h1)
        exact h x hx2 y hy2
      rw [ih hsub]

theorem insertionSort_congr_mem {α : Type} (r s : α → α → Prop)
    [DecidableRel r] [DecidableRel s] (l : List α)
    (h : ∀ x ∈ l, ∀ y ∈ l, (r x y ↔ s x y)) :
    List.insertionSort r l = List.insertionSort s l := by
  induction l with
  | nil => rfl
  | cons a t ih =>
    have hsubt : ∀ x ∈ t, ∀ y ∈ t, (r x y ↔ s x y) := by
      intro x hx y hy
      exact h x (List.mem_cons_of_mem a hx) y (List.mem_cons_of_mem a hy)
    simp only [List.insertionSort]
    rw [ih hsubt]
    apply orderedInsert_congr_mem
    intro x hx y hy
    have hmem : ∀ z, z ∈ a :: List.insertionSort s t → z ∈ a :: t := by
      intro z hz
      rcases List.mem_cons.mp hz with h1 | h1
      · rw [h1]
        exact List.mem_cons_self a t
      · exact List.mem_cons_of_mem a ((List.perm_insertionSort s t).subset h1)
    exact h x (hmem x hx) y (hmem y hy)

/-! ### Claim theorems for the reporter (C7) -/

/-- C7: when the executive-summary LLM call raises or returns empty content,
the rendered digest uses the deterministic local fallback, and that fallback
lists exactly the same top-3 rows the LLM path would have been fed — the
selection of the spec: sorted by `Relevancia` descending when that column is
present (its values being numeric), else the first rows in frame order;
first N — each rendered with title, date and link, plus a count sentence
over the full frame. -/
theorem llm_summary_failure_falls_back (df : EmailDf) (period_label : String)
    (outcome : Except String String)
    (hne : df.rows ≠ [])
    (hfail : (∃ e, outcome = .error e) ∨ (∃ s, outcome = .ok s ∧ s.trim = ""))
    (hnum : df.hasRel = true → ∀ r ∈ df.rows, r.relevancia.isSome = true) :
    (generar_resumen_ejecutivo_llm df period_label 3 outcome).html =
      generar_resumen_ejecutivo_fallback df period_label 3 ∧
    (generar_resumen_ejecutivo_llm df period_label 3 outcome).fed =
      (build_top_resolutions_payload df 3).map (mkLlmRecord df.hasRel) ∧
    generar_resumen_ejecutivo_fallback df period_label 3 =
      resumenTemplate df.rows.length period_label
        (min 3 (specTopSelection df 3).length)
        ((specTopSelection df 3).map fallbackItem) ∧
    build_top_resolutions_payload df 3 = specTopSelection df 3 := by
  have hemp : df.rows.isEmpty = false := by
    cases hr : df.rows with
    | nil => exact absurd hr hne
    | cons a t => rfl
  have hsel : build_top_resolutions_payload df 3 = specTopSelection df 3 := by
    unfold build_top_resolutions_payload specTopSelection
    rw [hemp]
    simp only [Bool.false_eq_true, if_false]
    cases hrel : df.hasRel with
    | false => rfl
    | true =>
      simp only [if_true]
      have hagree : ∀ x ∈ df.rows, ∀ y ∈ df.rows,
          (relDescLe x y ↔ specScoreDesc x y) := by
        intro x hx y hy
        rcases Option.isSome_iff_exists.mp (hnum hrel x hx) with ⟨vx, hvx⟩
        rcases Option.isSome_iff_exists.mp (hnum hrel y hy) with ⟨vy, hvy⟩
        unfold relDescLe relDescB specScoreDesc
        rw [hvx, hvy]
        simp [optDescB]
      rw [insertionSort_congr_mem relDescLe specScoreDesc df.rows hagree]
  have hllm : ∀ o, (o = outcome) →
      (generar_resumen_ejecutivo_llm df period_label 3 outcome).html =
        generar_resumen_ejecutivo_fallback df period_label 3 ∧
      (generar_resumen_ejecutivo_llm df period_label 3 outcome).fed =
        (build_top_resolutions_payload df 3).map (mkLlmRecord df.hasRel) := by
    intro o _
    unfold generar_resumen_ejecutivo_llm
    rw [hemp]
    simp only [Bool.false_eq_true, if_false]
    rcases hfail with ⟨e, he⟩ | ⟨s, hs, hst⟩
    · rw [he]
      exact ⟨rfl, rfl⟩
    · rw [hs]
      simp only [hst, if_pos rfl]
      exact ⟨rfl, rfl⟩
  refine ⟨(hllm outcome rfl).1, (hllm outcome rfl).2, ?_, hsel⟩
  unfold generar_resumen_ejecutivo_fallback
  rw [hemp]
  simp only [Bool.false_eq_true, if_false]
  rw [hsel]

theorem llm_summary_failure_falls_back_witness :
    ((⟨true, [⟨"t1", "09/06/2025", "r1", "l1", some 71⟩,
        ⟨"t2", "10/06/2025", "r2", "l2", some 95⟩]⟩ : EmailDf)).rows ≠ [] ∧
    ((∃ e, (Except.error "boom" : Except String String) = .error e) ∨
      (∃ s, (Except.error "boom" : Except String String) = .ok s ∧
        s.trim = "")) ∧
    ((⟨true, [⟨"t1", "09/06/2025", "r1", "l1", some 71⟩,
        ⟨"t2", "10/06/2025", "r2", "l2", some 95⟩]⟩ : EmailDf).hasRel = true →
      ∀ r ∈ (⟨true, [⟨"t1", "09/06/2025", "r1", "l1", some 71⟩,
        ⟨"t2", "10/06/2025", "r2", "l2", some 95⟩]⟩ : EmailDf).rows,
        r.relevancia.isSome = true) ∧
    ((generar_resumen_ejecutivo_llm
        ⟨true, [⟨"t1", "09/06/2025", "r1", "l1", some 71⟩,
          ⟨"t2", "10/06/2025", "r2", "l2", some 95⟩]⟩ "la última semana" 3
        (.error "boom")).html =
      generar_resumen_ejecutivo_fallback
        ⟨true, [⟨"t1", "09/06/2025", "r1", "l1", some 71⟩,
          ⟨"t2", "10/06/2025", "r2", "l2", some 95⟩]⟩ "la última semana" 3 ∧
    (generar_resumen_ejecutivo_llm
        ⟨true, [⟨"t1", "09/06/2025", "r1", "l1", some 71⟩,
          ⟨"t2", "10/06/2025", "r2", "l2", some 95⟩]⟩ "la última semana" 3
        (.error "boom")).fed =
      (build_top_resolutions_payload
        ⟨true, [⟨"t1", "09/06/2025", "r1", "l1", some 71⟩,
          ⟨"t2", "10/06/2025", "r2", "l2", some 95⟩]⟩ 3).map
        (mkLlmRecord true) ∧
    generar_resumen_ejecutivo_fallback
        ⟨true, [⟨"t1", "09/06/2025", "r1", "l1", some 71⟩,
          ⟨"t2", "10/06/2025", "r2", "l2", some 95⟩]⟩ "la última semana" 3 =
      resumenTemplate 2 "la última semana"
        (min 3 (specTopSelection
          ⟨true, [⟨"t1", "09/06/2025", "r1", "l1", some 71⟩,
            ⟨"t2", "10/06/2025", "r2", "l2", some 95⟩]⟩ 3).length)
        ((specTopSelection
          ⟨true, [⟨"t1", "09/06/2025", "r1", "l1", some 71⟩,
            ⟨"t2", "10/06/2025", "r2", "l2", some 95⟩]⟩ 3).map fallbackItem) ∧
    build_top_resolutions_payload
        ⟨true, [⟨"t1", "09/06/2025", "r1", "l1", some 71⟩,
          ⟨"t2", "10/06/2025", "r2", "l2", some 95⟩]⟩ 3 =
      specTopSelection
        ⟨true, [⟨"t1", "09/06/2025", "r1", "l1", some 71⟩,
          ⟨"t2", "10/06/2025", "r2", "l2", some 95⟩]⟩ 3) :=
  ⟨by simp, Or.inl ⟨"boom", rfl⟩, by intro _ r hr; fin_cases hr <;> rfl,
    llm_summary_failure_falls_back _ "la última semana" (.error "boom")
      (by simp) (Or.inl ⟨"boom", rfl⟩)
      (by intro _ r hr; fin_cases hr <;> rfl)⟩

/-! ### The weekly report selection (C8) -/

/-- The record selection of `send_weekly_report_task`: when the `Relevancia`
column is present, re-sort score descending and keep the first ten rows;
otherwise hand the frame over unchanged. -/
def send_weekly_report_select (df : EmailDf) : EmailDf :=
  if df.hasRel then ⟨df.hasRel, (List.insertionSort relDescLe df.rows).take 10⟩
  else df

/-- One per-record card of `generar_html_email_styled`. -/
def emailCard (r : EmailRow) : String :=
  let titulo := if r.tituloGenerado = "" then "(Sin título)" else r.tituloGenerado
  let enlace := if r.enlace = "" then "#" else r.enlace
  "\n        <div style=\"margin-bottom: 30px; padding: 20px; border: 1px solid #ecf0f1; border-radius: 5px;\">\n            <h2 style=\"color: #34495e; margin-top: 0; margin-bottom: 15px; font-size: 18px;\">\n                "
    ++ titulo ++ " - " ++ r.fecha ++
    "\n            </h2>\n            <p style=\"color: #555; line-height: 1.6; margin-bottom: 15px;\">\n                "
    ++ r.resumen ++
    "\n            </p>\n            <p style=\"margin-bottom: 0;\">\n                <a href=\""
    ++ enlace ++
    "\" style=\"color: #3498db; text-decoration: none; font-weight: bold;\">\n                    Ver resolución completa\n                </a>\n            </p>\n        </div>\n        "

/-- The per-record cards of the digest body, one per row in frame order. -/
def emailCards (df : EmailDf) : List String := df.rows.map emailCard

/-- C8: in the weekly report flow, when the `Relevancia` column is present,
the records handed to the renderer are the store read re-sorted by
`Relevancia` descending and truncated to at most ten rows, so the emailed
digest renders at most ten record cards and they appear in score-descending
order rather than the date-ascending order the store read returned. -/
theorem weekly_report_top10 (df : EmailDf) (hne : df.rows ≠ [])
    (hrel : df.hasRel = true) :
    ∃ sorted : List EmailRow,
      sorted.Perm df.rows ∧
      sorted.Sorted relDescLe ∧
      (send_weekly_report_select df).rows = sorted.take 10 ∧
      (send_weekly_report_select df).rows.length ≤ 10 ∧
      (send_weekly_report_select df).rows.Sorted relDescLe ∧
      (emailCards (send_weekly_report_select df)).length ≤ 10 := by
  have hsel : (send_weekly_report_select df).rows =
      (List.insertionSort relDescLe df.rows).take 10 := by
    unfold send_weekly_report_select
    rw [hrel]
    rfl
  refine ⟨List.insertionSort relDescLe df.rows,
    List.perm_insertionSort relDescLe df.rows,
    List.sorted_insertionSort relDescLe df.rows, hsel, ?_, ?_, ?_⟩
  · rw [hsel]
    exact List.length_take_le 10 _
  · rw [hsel]
    exact (List.sorted_insertionSort relDescLe df.rows).sublist
      (List.take_sublist 10 _)
  · unfold emailCards
    rw [List.length_map, hsel]
    exact List.length_take_le 10 _

theorem weekly_report_top10_witness :
    ((⟨true, [⟨"t1", "09/06/2025", "r1", "l1", some 71⟩,
        ⟨"t2", "10/06/2025", "r2", "l2", some 95⟩]⟩ : EmailDf)).rows ≠ [] ∧
    ((⟨true, [⟨"t1", "09/06/2025", "r1", "l1", some 71⟩,
        ⟨"t2", "10/06/2025", "r2", "l2", some 95⟩]⟩ : EmailDf)).hasRel = true ∧
    (∃ sorted : List EmailRow,
      sorted.Perm (⟨true, [⟨"t1", "09/06/2025", "r1", "l1", some 71⟩,
        ⟨"t2", "10/06/2025", "r2", "l2", some 95⟩]⟩ : EmailDf).rows ∧
      sorted.Sorted relDescLe ∧
      (send_weekly_report_select
        ⟨true, [⟨"t1", "09/06/2025", "r1", "l1", some 71⟩,
          ⟨"t2", "10/06/2025", "r2", "l2", some 95⟩]⟩).rows = sorted.take 10 ∧
      (send_weekly_report_select
        ⟨true, [⟨"t1", "09/06/2025", "r1", "l1", some 71⟩,
          ⟨"t2", "10/06/2025", "r2", "l2", some 95⟩]⟩).rows.length ≤ 10 ∧
      (send_weekly_report_select
        ⟨true, [⟨"t1", "09/06/2025", "r1", "l1", some 71⟩,
          ⟨"t2", "10/06/2025", "r2", "l2", some 95⟩]⟩).rows.Sorted relDescLe ∧
      (emailCards (send_weekly_report_select
        ⟨true, [⟨"t1", "09/06/2025", "r1", "l1", some 71⟩,
          ⟨"t2", "10/06/2025", "r2", "l2", some 95⟩]⟩)).length ≤ 10) :=
  ⟨by simp, rfl,
    weekly_report_top10 _ (by simp) rfl⟩

end BO
